import Mathlib

/-!
Shallow embedding of the JungleSpace3D audio engine and visual-entity
lifecycle, translated from the TypeScript sources:
  - src/unnamed/part_000  (class AudioEngine, newer variant)
  - src/unnamed/part_001  (class AudioEngine, older variant; embedded where
    its behaviour differs, namely speakCloud)
  - src/types.ts          (enums; the App sweep interval and entity model)
Frequencies, times and volumes are modelled as rationals; JS Maps are
modelled as association lists; wall-clock / audio-clock instants are passed
explicitly; Math.random() draws are passed as explicit parameters.
-/

namespace JungleSpace

/-- Enum DrumStyle from src/types.ts. -/
inductive DrumStyle
  | DNB
  | JUNGLE
  | BREAKCORE
  deriving DecidableEq, Repr

/-- Enum AmenType from src/types.ts. -/
inductive AmenType
  | CLASSIC
  | APACHE
  | THINK
  | HOTPANTS
  | SOUL_PRIDE
  | ASSEMBLE
  | THE_WORM
  deriving DecidableEq, Repr

/-- Enum SoundPreset from src/types.ts. -/
inductive SoundPreset
  | STELLAR_WINDS
  | GRAVITY_WELL
  | AURORA_AMBIENT
  | VOID_TEXTURE
  | CELESTIAL_PAD
  | JUNGLE_ATMOS
  | DREAM_STAB
  | SUB_RESONANCE
  deriving DecidableEq, Repr

/-- Enum TtsProvider from src/types.ts. -/
inductive TtsProvider
  | GEMINI
  | BROWSER
  | YANDEX
  | GIGACHAT
  | OPENAI
  deriving DecidableEq, Repr

/-- Oscillator types used by playNote / playDrum (Web Audio OscillatorType). -/
inductive OscType
  | sine
  | square
  | sawtooth
  deriving DecidableEq, Repr

/-- Biquad filter types used by playNote / playDrum. -/
inductive FilterType
  | bandpass
  | lowpass
  | highpass
  deriving DecidableEq, Repr

/-- Descriptor of one node of a synthesis graph built by
AudioEngine.playNote (part_000).  The random noise-buffer contents are
abstracted to the node kind; frequencies and parameters are kept. -/
inductive NodeDesc
  | noise
  | osc (t : OscType) (freq : ℚ)
  | oscSweep (t : OscType) (f0 f1 dur : ℚ)
  | filter (t : FilterType) (freq : ℚ) (q : Option ℚ)
  | filterSweep (t : FilterType) (f0 f1 dur : ℚ) (q : Option ℚ)
  | lfo (freq : ℚ)
  | lfoGain (amount : ℚ)
  | shaper (amount : ℚ)
  deriving DecidableEq, Repr

/-- Scheduled gain-envelope events on a voice mainGain node. -/
inductive EnvEvent
  | setValue (v t : ℚ)
  | linearRamp (v t : ℚ)
  | expRamp (v t : ℚ)
  | cancelScheduled (t : ℚ)
  | setToCurrent (t : ℚ)
  deriving DecidableEq, Repr

/-- One voice stored in activeOscillators: the node list and the mainGain
envelope schedule (part_000 playNote stores js nodes and the gain node). -/
structure Voice where
  nodes : List NodeDesc
  envelope : List EnvEvent
  deriving DecidableEq, Repr

/-- The beatTimer slot: the setInterval period in milliseconds together
with the style/variant captured by the startBeats closure (part_000). -/
structure BeatTimer where
  intervalMs : ℚ
  style : DrumStyle
  amen : AmenType
  deriving DecidableEq, Repr

/-- Lookup in a JS-Map-as-association-list (Map.get). -/
def mapGet {α : Type} (m : List (String × α)) (k : String) : Option α :=
  match m with
  | [] => none
  | (k1, v) :: rest => if k1 = k then some v else mapGet rest k

/-- In-place value update at a key (leaves other entries untouched). -/
def mapUpdate {α : Type} (m : List (String × α)) (k : String) (f : α → α) :
    List (String × α) :=
  match m with
  | [] => []
  | (k1, v) :: rest =>
    if k1 = k then (k1, f v) :: rest else (k1, v) :: mapUpdate rest k f

/-- Removal of a key (Map.delete). -/
def mapDelete {α : Type} (m : List (String × α)) (k : String) :
    List (String × α) :=
  m.filter (fun p => decide (p.1 ≠ k))

/-- State of the AudioEngine singleton (part_000 fields).  ctxInit stands
for the audio context and the graph nodes created by init/setupAudioGraph
being non-null (they are all set together by init).  pendingTeardowns
records setTimeout callbacks scheduled by stopNote as (delay-ms, keyCode).
The three gain-event lists record setTargetAtTime calls on the
synth/beat/tts bus gains. -/
structure EngineState where
  ctxInit : Bool
  activeOscillators : List (String × Voice)
  beatTimer : Option BeatTimer
  currentStep : ℕ
  currentPreset : SoundPreset
  keyFreqMap : List (String × ℚ)
  pendingTeardowns : List (ℚ × String)
  synthGainEvents : List (ℚ × ℚ × ℚ)
  beatGainEvents : List (ℚ × ℚ × ℚ)
  ttsGainEvents : List (ℚ × ℚ × ℚ)
  deriving DecidableEq, Repr

/-- The fixed frequency palette baseFreqs (part_000 lines 78-81), in Hz. -/
def baseFreqs : List ℚ :=
  [6541/100, 7342/100, 8241/100, 9800/100, 11000/100, 13081/100, 14683/100,
   16481/100, 19600/100, 22000/100, 26163/100, 29366/100, 32963/100,
   39200/100, 44000/100, 52325/100, 58733/100, 65925/100, 78399/100,
   88000/100]

/-- Key-identifier list: "QWERTYUIOPASDFGHJKLZXCVBNM".split("") with the
Key prefix applied, as in generateKeyMap. -/
def keyList : List String :=
  "QWERTYUIOPASDFGHJKLZXCVBNM".toList.map (fun c => "Key" ++ c.toString)

/-- The forEach loop of generateKeyMap: starting at index i, assigns to
each key the shuffled frequency at position (index mod palette length). -/
def buildKeyMap (ks : List String) (i : ℕ) (shuffled : List ℚ) :
    List (String × ℚ) :=
  match ks with
  | [] => []
  | k :: rest =>
    (k, shuffled.getD (i % shuffled.length) 0) :: buildKeyMap rest (i + 1) shuffled

/-- AudioEngine.generateKeyMap (part_000 lines 69-76).  The outcome of
the Math.random shuffle of baseFreqs is passed in as the list shuffled
(always a permutation of baseFreqs). -/
def generateKeyMap (s : EngineState) (shuffled : List ℚ) : EngineState :=
  { s with keyFreqMap := buildKeyMap keyList 0 shuffled }

/-- The synthesis-graph recipe of AudioEngine.playNote (part_000 lines
198-286): per-preset node list and attack time.  The default branch
(attack 0.5, no nodes) is unreachable for the eight presets but kept as
the initialisation values of the source. -/
def buildGraph (preset : SoundPreset) (freq : ℚ) : List NodeDesc × ℚ :=
  match preset with
  | .STELLAR_WINDS =>
    ([.noise, .filter .bandpass freq (some 25)], 18/10)
  | .GRAVITY_WELL =>
    ([.oscSweep .sine freq (freq/5) (25/10)], 15/100)
  | .AURORA_AMBIENT =>
    ([.osc .sine freq, .lfo (1/2), .lfoGain 2], 2)
  | .VOID_TEXTURE =>
    ([.noise, .filter .lowpass (freq/2) none], 1)
  | .CELESTIAL_PAD =>
    ([.osc .sine (freq * 1), .osc .sine (freq * (101/100)),
      .osc .sine (freq * (1/2)), .osc .sine (freq * 2)], 15/10)
  | .JUNGLE_ATMOS =>
    ([.noise, .filter .highpass 1200 none], 25/10)
  | .DREAM_STAB =>
    ([.osc .square freq, .osc .sawtooth (freq * (15/10)),
      .filterSweep .lowpass 3000 300 (4/10) (some 15)], 5/100)
  | .SUB_RESONANCE =>
    ([.osc .sine (freq/4), .shaper 10], 2/10)

/-- The voice built by playNote at audio-clock time now: the graph of the
current preset plus the mainGain envelope (setValueAtTime 0 now, then
linearRampToValueAtTime 0.4 (now + attack)). -/
def buildVoice (preset : SoundPreset) (freq now : ℚ) : Voice :=
  let g := buildGraph preset freq
  { nodes := g.1
    envelope := [.setValue 0 now, .linearRamp (4/10) (now + g.2)] }

/-- AudioEngine.playNote (part_000 lines 189-291).  Guard 1: uninitialised
engine is a no-op.  Guard 2: an existing voice for keyCode is a no-op.
Otherwise the key frequency (default 261.63) picks the preset graph and
the voice is stored in activeOscillators. -/
def playNote (s : EngineState) (keyCode : String) (now : ℚ) : EngineState :=
  if ¬ s.ctxInit then s
  else if (mapGet s.activeOscillators keyCode).isSome then s
  else
    let freq := (mapGet s.keyFreqMap keyCode).getD (26163/100)
    let v := buildVoice s.currentPreset freq now
    { s with activeOscillators := s.activeOscillators ++ [(keyCode, v)] }

/-- AudioEngine.stopNote (part_000 lines 293-306).  r is the Math.random()
draw; release = 3.0 + r * 3.  The voice envelope is cancelled, pinned to
its current value and ramped toward 0.0001; a setTimeout of release*1000
milliseconds is scheduled that will stop the nodes and delete the key.
The key is NOT removed here. -/
def stopNote (s : EngineState) (keyCode : String) (now r : ℚ) : EngineState :=
  match mapGet s.activeOscillators keyCode with
  | none => s
  | some v =>
    if s.ctxInit then
      let release : ℚ := 3 + r * 3
      { s with
        activeOscillators := mapUpdate s.activeOscillators keyCode
          (fun _ => { v with envelope := v.envelope ++
            [.cancelScheduled now, .setToCurrent now,
             .expRamp (1/10000) (now + release)] })
        pendingTeardowns := s.pendingTeardowns ++ [(release * 1000, keyCode)] }
    else s

/-- The setTimeout callback scheduled by stopNote: stops/disconnects the
nodes and deletes keyCode from activeOscillators. -/
def fireTeardown (s : EngineState) (keyCode : String) : EngineState :=
  { s with activeOscillators := mapDelete s.activeOscillators keyCode }

/-- AudioEngine.setPreset (part_000 line 110): stores the preset only. -/
def setPreset (s : EngineState) (preset : SoundPreset) : EngineState :=
  { s with currentPreset := preset }

/-- AudioEngine.setVolumes (part_000 lines 112-116): setTargetAtTime on
each bus gain with time constant 0.1, each call guarded on the context. -/
def setVolumes (s : EngineState) (synth beat voice now : ℚ) : EngineState :=
  let s1 := if s.ctxInit then
    { s with synthGainEvents := s.synthGainEvents ++ [(synth, now, 1/10)] }
    else s
  let s2 := if s1.ctxInit then
    { s1 with beatGainEvents := s1.beatGainEvents ++ [(beat, now, 1/10)] }
    else s1
  if s2.ctxInit then
    { s2 with ttsGainEvents := s2.ttsGainEvents ++ [(voice, now, 1/10)] }
  else s2

/-- AudioEngine.stopBeats (part_000 line 390): clearInterval and null the
timer slot when one exists. -/
def stopBeats (s : EngineState) : EngineState :=
  match s.beatTimer with
  | some _ => { s with beatTimer := none }
  | none => s

/-- AudioEngine.clearAllNotes (part_000 lines 83-108): guarded on the
context; zeroes and stops every voice, clears the map, rebuilds the audio
graph (fresh bus gain nodes, so scheduled gain events are discarded) and
calls stopBeats.  Pending stopNote timeouts are not cancelled (their later
deletes are harmless). -/
def clearAllNotes (s : EngineState) : EngineState :=
  if ¬ s.ctxInit then s
  else stopBeats { s with
    activeOscillators := []
    synthGainEvents := []
    beatGainEvents := []
    ttsGainEvents := [] }

/-- One percussion trigger passed to playDrum: drum type, volume and
basePitch (playDrum defaults volume = 1.0, basePitch = 100). -/
inductive DrumKind
  | kick
  | snare
  | hat
  deriving DecidableEq, Repr

/-- A playDrum call record. -/
structure Trigger where
  drum : DrumKind
  volume : ℚ
  basePitch : ℚ
  deriving DecidableEq, Repr

/-- Conditional trigger helper for the pattern tables. -/
def optTrig (c : Prop) [Decidable c] (t : Trigger) : List Trigger :=
  if c then [t] else []

/-- The BREAKCORE branch of the tick (part_000 lines 351-355).  rand
enumerates the successive Math.random() draws of the tick body in
evaluation order. -/
def breakcoreTriggers (rand : ℕ → ℚ) : List Trigger :=
  let k := if rand 0 > 6/10 then
    ([Trigger.mk .kick (rand 1) (40 + rand 2 * 80)], 3) else ([], 1)
  let sn := if rand k.2 > 4/10 then
    ([Trigger.mk .snare (rand (k.2 + 1)) (150 + rand (k.2 + 2) * 500)], k.2 + 3)
    else ([], k.2 + 1)
  let h := if rand sn.2 > 2/10 then
    [Trigger.mk .hat (rand (sn.2 + 1) * (3/10)) 100] else []
  k.1 ++ sn.1 ++ h

/-- The pattern table of the startBeats tick body (part_000 lines
317-355): the playDrum calls fired at a given (already reduced) step for
each style/variant. -/
def styleTriggers (style : DrumStyle) (amen : AmenType) (step : ℕ)
    (rand : ℕ → ℚ) : List Trigger :=
  match style with
  | .DNB =>
    optTrig (step = 0 ∨ step = 10) ⟨.kick, 1, 55⟩ ++
    optTrig (step = 4 ∨ step = 12) ⟨.snare, 8/10, 180⟩ ++
    optTrig (step % 2 = 0) ⟨.hat, 15/100, 100⟩
  | .JUNGLE =>
    match amen with
    | .CLASSIC =>
      optTrig (step = 0 ∨ step = 7 ∨ step = 10) ⟨.kick, 1, 70⟩ ++
      optTrig (step = 4 ∨ step = 12) ⟨.snare, 9/10, 250⟩ ++
      optTrig (step ∈ [6, 13, 14, 15]) ⟨.snare, 35/100, 280⟩
    | .APACHE =>
      optTrig (step = 0 ∨ step = 2 ∨ step = 8 ∨ step = 10) ⟨.kick, 8/10, 65⟩ ++
      optTrig (step = 4 ∨ step = 12) ⟨.snare, 1, 210⟩ ++
      optTrig (step % 2 ≠ 0) ⟨.hat, 2/10, 8000⟩
    | .THINK =>
      optTrig (step = 0 ∨ step = 10) ⟨.kick, 9/10, 80⟩ ++
      optTrig (step = 4 ∨ step = 12) ⟨.snare, 7/10, 350⟩ ++
      optTrig (step % 2 = 0) ⟨.snare, 2/10, 400⟩
    | .HOTPANTS =>
      optTrig (step = 0 ∨ step = 8) ⟨.kick, 1, 50⟩ ++
      optTrig (step = 4 ∨ step = 12) ⟨.snare, 8/10, 200⟩ ++
      optTrig (step % 1 = 0) ⟨.hat, 1/10, 14000⟩
    | .SOUL_PRIDE =>
      optTrig (step = 0 ∨ step = 7 ∨ step = 10) ⟨.kick, 1, 60⟩ ++
      optTrig (step = 4 ∨ step = 12) ⟨.snare, 9/10, 220⟩ ++
      optTrig (step % 2 = 0) ⟨.hat, 2/10, 10000⟩
    | .ASSEMBLE =>
      optTrig (step = 0 ∨ step = 3 ∨ step = 8 ∨ step = 11) ⟨.kick, 1, 50⟩ ++
      optTrig (step = 4 ∨ step = 12) ⟨.snare, 9/10, 280⟩ ++
      optTrig (step % 1 = 0) ⟨.hat, 1/10, 12000⟩
    | .THE_WORM =>
      optTrig (step = 0 ∨ step = 10) ⟨.kick, 1, 55⟩ ++
      optTrig (step = 4 ∨ step = 11 ∨ step = 12) ⟨.snare, 8/10, 240⟩ ++
      optTrig (step % 2 = 0 ∨ step % 3 = 0) ⟨.hat, 15/100, 15000⟩
  | .BREAKCORE => breakcoreTriggers rand

/-- AudioEngine.startBeats (part_000 lines 308-358): stopBeats, reset
currentStep to 0, then install the interval timer with period
(60 / bpm) / 4 * 1000 milliseconds, capturing style and amen. -/
def startBeats (s : EngineState) (bpm : ℚ) (style : DrumStyle)
    (amen : AmenType := .CLASSIC) : EngineState :=
  let s1 := stopBeats s
  let s2 := { s1 with currentStep := 0 }
  { s2 with beatTimer := some ⟨60 / bpm / 4 * 1000, style, amen⟩ }

/-- One firing of the setInterval callback installed by startBeats: runs
only while a timer is installed; bails out before touching currentStep if
the context is gone; otherwise computes step = currentStep % 16, fires the
pattern triggers and increments currentStep by one. -/
def beatTick (s : EngineState) (rand : ℕ → ℚ) : EngineState × List Trigger :=
  match s.beatTimer with
  | none => (s, [])
  | some t =>
    if ¬ s.ctxInit then (s, [])
    else
      let step := s.currentStep % 16
      ({ s with currentStep := s.currentStep + 1 },
       styleTriggers t.style t.amen step rand)

/-- State after n firings of the beat timer; rand n enumerates the random
draws of the nth firing. -/
def runSeq (s : EngineState) (rand : ℕ → ℕ → ℚ) : ℕ → EngineState
  | 0 => s
  | n + 1 => (beatTick (runSeq s rand n) (rand n)).1

/-- Triggers fired by the nth firing of the beat timer. -/
def tickTriggers (s : EngineState) (rand : ℕ → ℕ → ℚ) (n : ℕ) :
    List Trigger :=
  (beatTick (runSeq s rand n) (rand n)).2

/-- Step index observed by the nth firing of the beat timer. -/
def tickStep (s : EngineState) (rand : ℕ → ℕ → ℚ) (n : ℕ) : ℕ :=
  (runSeq s rand n).currentStep % 16

/-- Some drum of the given kind occurs among the triggers. -/
def hasDrum (d : DrumKind) (l : List Trigger) : Prop :=
  ∃ t ∈ l, t.drum = d

instance (d : DrumKind) (l : List Trigger) : Decidable (hasDrum d l) := by
  unfold hasDrum; infer_instance

/-- Reinterpretation of one little-endian byte pair as a signed 16-bit
sample (the new Int16Array(data.buffer) view of decodeAudioData). -/
def bytesToInt16 (lo hi : ℕ) : ℤ :=
  let u := lo + 256 * hi
  if u < 32768 then (u : ℤ) else (u : ℤ) - 65536

/-- The Int16Array view of a byte list: consecutive little-endian pairs
(a trailing odd byte cannot occur for a 16-bit PCM payload). -/
def toInt16List : List ℕ → List ℤ
  | lo :: hi :: rest => bytesToInt16 lo hi :: toInt16List rest
  | _ => []

/-- A decoded AudioBuffer: sample rate plus per-channel float data. -/
structure AudioBufferM where
  sampleRate : ℚ
  channels : List (List ℚ)
  deriving DecidableEq, Repr

/-- AudioEngine.decodeAudioData (part_000 lines 178-187): view the bytes
as Int16, frameCount = length / numChannels, and fill channel ch with
dataInt16[i * numChannels + ch] / 32768.0 (exact in binary floats, hence
modelled in the rationals). -/
def decodeAudioData (data : List ℕ) (sampleRate : ℚ) (numChannels : ℕ) :
    AudioBufferM :=
  let dataInt16 := toInt16List data
  let frameCount := dataInt16.length / numChannels
  { sampleRate := sampleRate
    channels := (List.range numChannels).map (fun ch =>
      (List.range frameCount).map (fun i =>
        ((dataInt16.getD (i * numChannels + ch) 0 : ℤ) : ℚ) / 32768)) }

/-- Modelled from the spec: the cloud speech payload format, "raw
little-endian 16-bit PCM at a fixed sample rate, mono" — each signed
16-bit sample is sent as its two little-endian bytes (two's complement).
The encoder is the external cloud side and is not in the repository. -/
def encodePcm16 : List ℤ → List ℕ
  | [] => []
  | s :: rest =>
    let u := (s % 65536).toNat
    u % 256 :: u / 256 :: encodePcm16 rest

/-- Observable actions of the speech output router. -/
inductive SpeechEffect
  | cloudRequest (model text voiceName : String)
  | playBuffer (buf : AudioBufferM)
  | webSpeech (text : String) (volume : ℚ)
  deriving DecidableEq, Repr

/-- Outcome of the awaited cloud request: error (rejection/throw), or a
response whose optional inline audio payload is given as decoded bytes
(the base64 transport of decodeBase64 is abstracted to the byte list). -/
abbrev CloudOutcome : Type := Except String (Option (List ℕ))

/-- AudioEngine.speakCloud of part_000 (lines 118-147): guarded on the
context; issues the request (voiceName falling back to "Zephyr" when
empty); on a payload, decodes at 24000 Hz mono and plays the buffer; the
catch block swallows any error and performs NO fallback (its comment
defers the fallback to the caller, which does not provide one). -/
def speakCloud_v0 (s : EngineState) (text : String) (_provider : TtsProvider)
    (voiceName : String) (_volume : ℚ) (outcome : CloudOutcome) :
    List SpeechEffect :=
  if ¬ s.ctxInit then []
  else
    .cloudRequest "gemini-2.5-flash-preview-tts" text
      (if voiceName = "" then "Zephyr" else voiceName) ::
    match outcome with
    | .error _ => []
    | .ok none => []
    | .ok (some bytes) => [.playBuffer (decodeAudioData bytes 24000 1)]

/-- AudioEngine.speakCloud of part_001 (lines 103-139): same shape, but
the default voice depends on the provider and the catch block logs and
falls back to speakWebSpeech(text, volume). -/
def speakCloud_v1 (s : EngineState) (text : String) (provider : TtsProvider)
    (voiceName : String) (volume : ℚ) (outcome : CloudOutcome) :
    List SpeechEffect :=
  if ¬ s.ctxInit then []
  else
    .cloudRequest "gemini-2.5-flash-preview-tts" text
      (if voiceName = "" then
        (if provider = .YANDEX then "Kore" else "Zephyr") else voiceName) ::
    match outcome with
    | .error _ => [.webSpeech text volume]
    | .ok none => []
    | .ok (some bytes) => [.playBuffer (decodeAudioData bytes 24000 1)]

/-- A live visual entity as swept by the App interval (src/types.ts):
only the fields the sweep reads, plus the identifying id.  The same
filter is applied to shapes, text fragments and flying characters. -/
structure Entity where
  id : String
  createdAt : ℚ
  lifeTime : ℚ
  deriving DecidableEq, Repr

/-- One sweep pass (src/types.ts lines 370-378 and 776-783):
prev.filter(e => now - e.createdAt < e.lifeTime). -/
def sweep (now : ℚ) (l : List Entity) : List Entity :=
  l.filter (fun e => decide (now - e.createdAt < e.lifeTime))

/-- Array.prototype.slice(-cap): the last cap elements (all of them when
fewer). -/
def sliceLast {α : Type} (l : List α) (cap : ℕ) : List α :=
  l.drop (l.length - cap)

/-- Operations the App performs on a live entity collection between
render-loop reads: the periodic sweep, and the functional append of
addShape (setX(prev => [...prev.slice(-cap), e])). -/
inductive EntityOp
  | sweepAt (now : ℚ)
  | add (e : Entity) (cap : ℕ)

/-- Apply one collection operation. -/
def applyOp (l : List Entity) : EntityOp → List Entity
  | .sweepAt now => sweep now l
  | .add e cap => sliceLast l cap ++ [e]

/-- Apply a sequence of collection operations in order. -/
def applyOps (l : List Entity) (ops : List EntityOp) : List Entity :=
  ops.foldl applyOp l

/-- An operation does not introduce the entity id i: true for sweeps, and
for adds whose (freshly randomised) entity id differs from i. -/
def opFresh (i : String) : EntityOp → Bool
  | .sweepAt _ => true
  | .add f _ => f.id != i

/-- Number of active voices held for a key. -/
def voiceCount (s : EngineState) (k : String) : ℕ :=
  (s.activeOscillators.filter (fun p => decide (p.1 = k))).length

/-- Engine state freshly after init(): context created, everything else at
its field initialisers (the key map is generated by init; left abstract
here by taking the already generated map as given). -/
def initState (freqMap : List (String × ℚ)) : EngineState :=
  { ctxInit := true
    activeOscillators := []
    beatTimer := none
    currentStep := 0
    currentPreset := .STELLAR_WINDS
    keyFreqMap := freqMap
    pendingTeardowns := []
    synthGainEvents := []
    beatGainEvents := []
    ttsGainEvents := [] }

/-- Engine state before init(): null context, field initialisers. -/
def uninitState : EngineState :=
  { ctxInit := false
    activeOscillators := []
    beatTimer := none
    currentStep := 0
    currentPreset := .STELLAR_WINDS
    keyFreqMap := []
    pendingTeardowns := []
    synthGainEvents := []
    beatGainEvents := []
    ttsGainEvents := [] }

lemma mapGet_none_iff {α : Type} (m : List (String × α)) (k : String) :
    mapGet m k = none ↔ ∀ p ∈ m, p.1 ≠ k := by
  induction m with
  | nil => simp [mapGet]
  | cons p rest ih =>
    obtain ⟨k1, v⟩ := p
    by_cases h : k1 = k
    · subst h
      simp [mapGet]
    · simp [mapGet, h, ih]

lemma mapGet_append_of_none {α : Type} {m : List (String × α)} {k : String}
    (h : mapGet m k = none) (l : List (String × α)) :
    mapGet (m ++ l) k = mapGet l k := by
  induction m with
  | nil => simp
  | cons p rest ih =>
    obtain ⟨k1, v⟩ := p
    by_cases hk : k1 = k
    · simp [mapGet, hk] at h
    · simp only [mapGet, hk, if_false, List.cons_append] at h ⊢
      exact ih h

lemma mapGet_append_left {α : Type} {m : List (String × α)} {k : String}
    (h : (mapGet m k).isSome) (l : List (String × α)) :
    mapGet (m ++ l) k = mapGet m k := by
  induction m with
  | nil => simp [mapGet] at h
  | cons p rest ih =>
    obtain ⟨k1, v⟩ := p
    by_cases hk : k1 = k
    · simp [mapGet, hk]
    · simp only [mapGet, hk, if_false, List.cons_append] at h ⊢
      exact ih h

lemma mapGet_update_self {α : Type} (m : List (String × α)) (k : String)
    (f : α → α) : mapGet (mapUpdate m k f) k = (mapGet m k).map f := by
  induction m with
  | nil => simp [mapGet, mapUpdate]
  | cons p rest ih =>
    obtain ⟨k1, v⟩ := p
    by_cases hk : k1 = k
    · simp [mapGet, mapUpdate, hk]
    · simp [mapGet, mapUpdate, hk, ih]

lemma filter_key_eq_nil {α : Type} {m : List (String × α)} {k : String}
    (h : mapGet m k = none) :
    m.filter (fun p => decide (p.1 = k)) = [] := by
  rw [List.filter_eq_nil_iff]
  intro p hp
  simpa using (mapGet_none_iff m k).mp h p hp

lemma filter_key_singleton {α : Type} {m : List (String × α)} {k : String}
    (hs : (mapGet m k).isSome) (hnd : (m.map Prod.fst).Nodup) :
    (m.filter (fun p => decide (p.1 = k))).length = 1 := by
  induction m with
  | nil => simp [mapGet] at hs
  | cons p rest ih =>
    obtain ⟨k1, v⟩ := p
    simp only [List.map_cons, List.nodup_cons] at hnd
    by_cases hk : k1 = k
    · subst hk
      have hrest : mapGet rest k1 = none := by
        rw [mapGet_none_iff]
        intro q hq hq1
        exact hnd.1 (hq1 ▸ List.mem_map_of_mem Prod.fst hq)
      simp [filter_key_eq_nil hrest]
    · simp only [mapGet, hk, if_false] at hs
      simpa [List.filter_cons, hk] using ih hs hnd.2

lemma playNote_noop_active (s : EngineState) (k : String) (t : ℚ)
    (h : (mapGet s.activeOscillators k).isSome) : playNote s k t = s := by
  by_cases hc : s.ctxInit <;> simp [playNote, h, hc]

lemma playNote_append (s : EngineState) (k : String) (t : ℚ)
    (hctx : s.ctxInit = true) (hk : mapGet s.activeOscillators k = none) :
    playNote s k t = { s with activeOscillators :=
      s.activeOscillators ++
      [(k, buildVoice s.currentPreset
        ((mapGet s.keyFreqMap k).getD (26163/100)) t)] } := by
  simp [playNote, hctx, hk]

/-- C1: playNote is idempotent against key repeat — when a voice for the
key already exists the whole engine state (the active-voice map included)
is left unchanged, and two consecutive playNote calls for the same key
leave exactly one active voice for it. -/
theorem playNote_idempotent (s : EngineState) (k : String) (now now2 : ℚ)
    (hctx : s.ctxInit = true)
    (hnd : (s.activeOscillators.map Prod.fst).Nodup) :
    ((mapGet s.activeOscillators k).isSome → playNote s k now = s) ∧
    voiceCount (playNote (playNote s k now) k now2) k = 1 := by
  refine ⟨fun hk => playNote_noop_active s k now hk, ?_⟩
  cases hk : mapGet s.activeOscillators k with
  | some v =>
    have hs : (mapGet s.activeOscillators k).isSome := by simp [hk]
    rw [playNote_noop_active s k now hs, playNote_noop_active s k now2 hs]
    unfold voiceCount
    exact filter_key_singleton hs hnd
  | none =>
    have h1 := playNote_append s k now hctx hk
    have h2 : (mapGet (playNote s k now).activeOscillators k).isSome := by
      rw [h1]
      simp [mapGet_append_of_none hk, mapGet]
    rw [playNote_noop_active (playNote s k now) k now2 h2, h1]
    unfold voiceCount
    simp only [List.filter_append, List.length_append, filter_key_eq_nil hk]
    simp

lemma stopNote_eq (s : EngineState) (k : String) (now r : ℚ) (v : Voice)
    (hctx : s.ctxInit = true) (hk : mapGet s.activeOscillators k = some v) :
    stopNote s k now r = { s with
      activeOscillators := mapUpdate s.activeOscillators k
        (fun _ => { v with envelope := v.envelope ++
          [.cancelScheduled now, .setToCurrent now,
           .expRamp (1/10000) (now + (3 + r * 3))] })
      pendingTeardowns := s.pendingTeardowns ++ [((3 + r * 3) * 1000, k)] }
    := by
  simp [stopNote, hk, hctx]

/-- C9: setPreset only stores the preset identifier — every other field of
the engine, in particular the active-voice map with every sounding voice
and its envelope, is untouched; and a playNote call made after the switch
builds its voice from the new preset recipe. -/
theorem setPreset_frame (s : EngineState) (p : SoundPreset) (k : String)
    (now : ℚ) (hctx : s.ctxInit = true)
    (hk : mapGet s.activeOscillators k = none) :
    (setPreset s p).activeOscillators = s.activeOscillators ∧
    (setPreset s p).beatTimer = s.beatTimer ∧
    (setPreset s p).currentStep = s.currentStep ∧
    (setPreset s p).keyFreqMap = s.keyFreqMap ∧
    (setPreset s p).pendingTeardowns = s.pendingTeardowns ∧
    (setPreset s p).synthGainEvents = s.synthGainEvents ∧
    (setPreset s p).beatGainEvents = s.beatGainEvents ∧
    (setPreset s p).ttsGainEvents = s.ttsGainEvents ∧
    (setPreset s p).ctxInit = s.ctxInit ∧
    (setPreset s p).currentPreset = p ∧
    mapGet (playNote (setPreset s p) k now).activeOscillators k =
      some (buildVoice p ((mapGet s.keyFreqMap k).getD (26163/100)) now) := by
  refine ⟨rfl, rfl, rfl, rfl, rfl, rfl, rfl, rfl, rfl, rfl, ?_⟩
  rw [playNote_append (setPreset s p) k now hctx hk]
  have hk2 : mapGet (setPreset s p).activeOscillators k = none := hk
  rw [mapGet_append_of_none hk2]
  simp [mapGet, setPreset]

/-- Witness for C9 at a concrete engine state with a mapped key. -/
theorem setPreset_frame_witness :
    ((initState [("KeyQ", 440)]).ctxInit = true ∧
      mapGet (initState [("KeyQ", 440)]).activeOscillators "KeyQ" = none) ∧
    mapGet (playNote (setPreset (initState [("KeyQ", 440)]) .DREAM_STAB)
        "KeyQ" 0).activeOscillators "KeyQ" =
      some (buildVoice .DREAM_STAB
        ((mapGet (initState [("KeyQ", 440)]).keyFreqMap "KeyQ").getD
          (26163/100)) 0) :=
  ⟨⟨by decide, by decide⟩,
    (setPreset_frame (initState [("KeyQ", 440)]) .DREAM_STAB "KeyQ" 0
      (by decide) (by decide)).2.2.2.2.2.2.2.2.2.2⟩

lemma mapGet_delete_self {α : Type} (m : List (String × α)) (k : String) :
    mapGet (mapDelete m k) k = none := by
  rw [mapGet_none_iff]
  intro p hp
  exact of_decide_eq_true (List.mem_filter.mp hp).2

/-- C10: after stopNote on an active voice the key stays in the
active-voice map (only the scheduled teardown, recorded with its
wall-clock delay of (3 + r*3)*1000 milliseconds, deletes it when it
fires), and while it is still there playNote for that key is a no-op, so
re-pressing the key before the teardown neither creates a voice nor a
new attack. -/
theorem stopNote_release_window (s : EngineState) (k : String)
    (now r now2 : ℚ) (hctx : s.ctxInit = true)
    (h : (mapGet s.activeOscillators k).isSome) :
    (mapGet (stopNote s k now r).activeOscillators k).isSome ∧
    ((3 + r * 3) * 1000, k) ∈ (stopNote s k now r).pendingTeardowns ∧
    playNote (stopNote s k now r) k now2 = stopNote s k now r ∧
    mapGet (fireTeardown (stopNote s k now r) k).activeOscillators k =
      none := by
  obtain ⟨v, hv⟩ := Option.isSome_iff_exists.mp h
  rw [stopNote_eq s k now r v hctx hv]
  have hget : (mapGet (mapUpdate s.activeOscillators k
      (fun _ => { v with envelope := v.envelope ++
        [.cancelScheduled now, .setToCurrent now,
         .expRamp (1/10000) (now + (3 + r * 3))] })) k).isSome := by
    rw [mapGet_update_self, hv]
    rfl
  refine ⟨hget, by simp, playNote_noop_active _ k now2 hget, ?_⟩
  exact mapGet_delete_self _ k

/-- Witness for C10 at a concrete state holding one active voice. -/
theorem stopNote_release_window_witness :
    ((playNote (initState []) "KeyA" 0).ctxInit = true ∧
      (mapGet (playNote (initState []) "KeyA" 0).activeOscillators
        "KeyA").isSome) ∧
    ((mapGet (stopNote (playNote (initState []) "KeyA" 0) "KeyA" 2
        (1/2)).activeOscillators "KeyA").isSome ∧
      ((3 + (1/2) * 3) * 1000, "KeyA") ∈
        (stopNote (playNote (initState []) "KeyA" 0) "KeyA" 2
          (1/2)).pendingTeardowns ∧
      playNote (stopNote (playNote (initState []) "KeyA" 0) "KeyA" 2 (1/2))
          "KeyA" 3 =
        stopNote (playNote (initState []) "KeyA" 0) "KeyA" 2 (1/2) ∧
      mapGet (fireTeardown (stopNote (playNote (initState []) "KeyA" 0)
          "KeyA" 2 (1/2)) "KeyA").activeOscillators "KeyA" = none) :=
  ⟨⟨by decide, by decide⟩,
    stopNote_release_window (playNote (initState []) "KeyA" 0) "KeyA" 2
      (1/2) 3 (by decide) (by decide)⟩

lemma beatTick_ctxInit (s : EngineState) (rand : ℕ → ℚ) :
    (beatTick s rand).1.ctxInit = s.ctxInit := by
  cases ht : s.beatTimer <;> by_cases hc : s.ctxInit <;>
    simp [beatTick, ht, hc]

lemma beatTick_beatTimer (s : EngineState) (rand : ℕ → ℚ) :
    (beatTick s rand).1.beatTimer = s.beatTimer := by
  cases ht : s.beatTimer <;> by_cases hc : s.ctxInit <;>
    simp [beatTick, ht, hc]

lemma beatTick_running (s : EngineState) (rand : ℕ → ℚ) (t : BeatTimer)
    (ht : s.beatTimer = some t) (hc : s.ctxInit = true) :
    (beatTick s rand).1.currentStep = s.currentStep + 1 ∧
    (beatTick s rand).2 =
      styleTriggers t.style t.amen (s.currentStep % 16) rand := by
  simp [beatTick, ht, hc]

lemma runSeq_ctxInit (s : EngineState) (rand : ℕ → ℕ → ℚ) (n : ℕ) :
    (runSeq s rand n).ctxInit = s.ctxInit := by
  induction n with
  | zero => rfl
  | succ n ih => rw [runSeq, beatTick_ctxInit, ih]

lemma runSeq_beatTimer (s : EngineState) (rand : ℕ → ℕ → ℚ) (n : ℕ) :
    (runSeq s rand n).beatTimer = s.beatTimer := by
  induction n with
  | zero => rfl
  | succ n ih => rw [runSeq, beatTick_beatTimer, ih]

lemma runSeq_currentStep (s : EngineState) (rand : ℕ → ℕ → ℚ)
    (t : BeatTimer) (ht : s.beatTimer = some t) (hc : s.ctxInit = true)
    (n : ℕ) : (runSeq s rand n).currentStep = s.currentStep + n := by
  induction n with
  | zero => rfl
  | succ n ih =>
    rw [runSeq]
    have h1 := (beatTick_running (runSeq s rand n) (rand n) t
      (by rw [runSeq_beatTimer]; exact ht)
      (by rw [runSeq_ctxInit]; exact hc)).1
    rw [h1, ih]
    ring

lemma startBeats_fields (s : EngineState) (bpm : ℚ) (style : DrumStyle)
    (amen : AmenType) :
    (startBeats s bpm style amen).currentStep = 0 ∧
    (startBeats s bpm style amen).beatTimer =
      some ⟨60 / bpm / 4 * 1000, style, amen⟩ ∧
    (startBeats s bpm style amen).ctxInit = s.ctxInit := by
  cases ht : s.beatTimer <;> simp [startBeats, stopBeats, ht]

/-- C3: startBeats replaces any existing beat timer by a fresh recurring
tick of period (60 / bpm) / 4 seconds (the installed interval is that
period in milliseconds) and resets the step counter to 0; afterwards the
nth timer firing observes step index n mod 16 and leaves the counter at
n + 1, so the observed step sequence is monotonically increasing mod 16. -/
theorem startBeats_step_clock (s : EngineState) (bpm : ℚ)
    (style : DrumStyle) (amen : AmenType) (rand : ℕ → ℕ → ℚ)
    (hctx : s.ctxInit = true) :
    (startBeats s bpm style amen).currentStep = 0 ∧
    (startBeats s bpm style amen).beatTimer =
      some ⟨60 / bpm / 4 * 1000, style, amen⟩ ∧
    (∀ n, (runSeq (startBeats s bpm style amen) rand n).currentStep = n) ∧
    (∀ n, tickStep (startBeats s bpm style amen) rand n = n % 16) := by
  obtain ⟨h0, ht, hcp⟩ := startBeats_fields s bpm style amen
  have hc2 : (startBeats s bpm style amen).ctxInit = true := by
    rw [hcp]; exact hctx
  have hsteps : ∀ n,
      (runSeq (startBeats s bpm style amen) rand n).currentStep = n := by
    intro n
    rw [runSeq_currentStep _ rand _ ht hc2 n, h0]
    exact Nat.zero_add n
  exact ⟨h0, ht, hsteps, fun n => by rw [tickStep, hsteps n]⟩

/-- Witness for C3 at a concrete engine state and bpm 174. -/
theorem startBeats_step_clock_witness :
    (initState []).ctxInit = true ∧
    ((startBeats (initState []) 174 .DNB .CLASSIC).currentStep = 0 ∧
      (startBeats (initState []) 174 .DNB .CLASSIC).beatTimer =
        some ⟨60 / 174 / 4 * 1000, .DNB, .CLASSIC⟩ ∧
      (∀ n, (runSeq (startBeats (initState []) 174 .DNB .CLASSIC)
        (fun _ _ => 0) n).currentStep = n) ∧
      (∀ n, tickStep (startBeats (initState []) 174 .DNB .CLASSIC)
        (fun _ _ => 0) n = n % 16)) :=
  ⟨by decide, startBeats_step_clock (initState []) 174 .DNB .CLASSIC
    (fun _ _ => 0) (by decide)⟩

lemma dnb_kick_iff (amen : AmenType) (st : ℕ) (rand : ℕ → ℚ) :
    hasDrum .kick (styleTriggers .DNB amen st rand) ↔ st = 0 ∨ st = 10 := by
  by_cases h1 : (st = 0 ∨ st = 10) <;> by_cases h2 : (st = 4 ∨ st = 12) <;>
    by_cases h3 : st % 2 = 0 <;>
    simp [styleTriggers, optTrig, hasDrum, h1, h2, h3]

lemma dnb_snare_iff (amen : AmenType) (st : ℕ) (rand : ℕ → ℚ) :
    hasDrum .snare (styleTriggers .DNB amen st rand) ↔ st = 4 ∨ st = 12 := by
  by_cases h1 : (st = 0 ∨ st = 10) <;> by_cases h2 : (st = 4 ∨ st = 12) <;>
    by_cases h3 : st % 2 = 0 <;>
    simp [styleTriggers, optTrig, hasDrum, h1, h2, h3]

lemma tickTriggers_startBeats (s : EngineState) (bpm : ℚ)
    (style : DrumStyle) (amen : AmenType) (rand : ℕ → ℕ → ℚ) (n : ℕ)
    (hctx : s.ctxInit = true) :
    tickTriggers (startBeats s bpm style amen) rand n =
      styleTriggers style amen (n % 16) (rand n) := by
  obtain ⟨h0, ht, hcp⟩ := startBeats_fields s bpm style amen
  have hc2 : (startBeats s bpm style amen).ctxInit = true := by
    rw [hcp]; exact hctx
  have h1 := (beatTick_running (runSeq (startBeats s bpm style amen) rand n)
    (rand n) ⟨60 / bpm / 4 * 1000, style, amen⟩
    (by rw [runSeq_beatTimer]; exact ht)
    (by rw [runSeq_ctxInit]; exact hc2)).2
  rw [tickTriggers, h1, runSeq_currentStep _ rand _ ht hc2 n, h0]
  simp

/-- C4: with style DNB (any bpm, in particular 174), the nth sequencer
tick fires a kick exactly when n mod 16 is 0 or 10 and a snare exactly
when n mod 16 is 4 or 12. -/
theorem dnb_pattern (s : EngineState) (bpm : ℚ) (amen : AmenType)
    (rand : ℕ → ℕ → ℚ) (n : ℕ) (hctx : s.ctxInit = true) :
    (hasDrum .kick (tickTriggers (startBeats s bpm .DNB amen) rand n) ↔
      n % 16 = 0 ∨ n % 16 = 10) ∧
    (hasDrum .snare (tickTriggers (startBeats s bpm .DNB amen) rand n) ↔
      n % 16 = 4 ∨ n % 16 = 12) := by
  rw [tickTriggers_startBeats s bpm .DNB amen rand n hctx]
  exact ⟨dnb_kick_iff amen (n % 16) (rand n),
    dnb_snare_iff amen (n % 16) (rand n)⟩

/-- Witness for C4 at bpm 174 and ticks 10 and 4. -/
theorem dnb_pattern_witness :
    (initState []).ctxInit = true ∧
    (hasDrum .kick (tickTriggers (startBeats (initState []) 174 .DNB
        .CLASSIC) (fun _ _ => 0) 10) ↔
      10 % 16 = 0 ∨ 10 % 16 = 10) ∧
    (hasDrum .snare (tickTriggers (startBeats (initState []) 174 .DNB
        .CLASSIC) (fun _ _ => 0) 4) ↔
      4 % 16 = 4 ∨ 4 % 16 = 12) :=
  ⟨by decide,
    (dnb_pattern (initState []) 174 .CLASSIC (fun _ _ => 0) 10
      (by decide)).1,
    (dnb_pattern (initState []) 174 .CLASSIC (fun _ _ => 0) 4
      (by decide)).2⟩

lemma applyOps_fresh (i : String) (ops : List EntityOp) :
    ∀ l0 : List Entity, (∀ x ∈ l0, x.id ≠ i) →
    (∀ op ∈ ops, opFresh i op) →
    ∀ x ∈ applyOps l0 ops, x.id ≠ i := by
  induction ops with
  | nil => intro l0 hl0 _ x hx; exact hl0 x hx
  | cons op rest ih =>
    intro l0 hl0 hops x hx
    have hstep : ∀ y ∈ applyOp l0 op, y.id ≠ i := by
      intro y hy
      cases op with
      | sweepAt t =>
        exact hl0 y (List.mem_of_mem_filter hy)
      | add f cap =>
        simp only [applyOp, List.mem_append, List.mem_singleton] at hy
        rcases hy with hy | hyf
        · exact hl0 y (List.mem_of_mem_drop hy)
        · have hf := hops (.add f cap) (List.mem_cons_self _ _)
          rw [hyf]
          simpa [opFresh] using hf
    exact ih (applyOp l0 op) hstep
      (fun o ho => hops o (List.mem_cons_of_mem _ ho)) x hx

/-- C5: a sweep pass keeps exactly the entities with
now - createdAt < lifeTime, hence removes every expired entity; and once
an expired entity e has been swept out, no sequence of later sweeps and
adds of fresh-id entities ever puts its id back into the live collection
read by the render loop. -/
theorem sweep_removes_expired (l : List Entity) (e : Entity) (now : ℚ)
    (ops : List EntityOp) (hexp : e.lifeTime ≤ now - e.createdAt)
    (hid : ∀ x ∈ l, x.id = e.id → x = e)
    (hfresh : ∀ op ∈ ops, opFresh e.id op) :
    (∀ x, x ∈ sweep now l ↔ x ∈ l ∧ now - x.createdAt < x.lifeTime) ∧
    e ∉ sweep now l ∧
    (∀ x ∈ applyOps (sweep now l) ops, x.id ≠ e.id) := by
  have hmem : ∀ x, x ∈ sweep now l ↔
      x ∈ l ∧ now - x.createdAt < x.lifeTime := by
    intro x
    simp [sweep, List.mem_filter]
  refine ⟨hmem, ?_, ?_⟩
  · intro habs
    have := ((hmem e).mp habs).2
    linarith
  · refine applyOps_fresh e.id ops (sweep now l) ?_ hfresh
    intro x hx hxid
    have h1 := (hmem x).mp hx
    have h2 : x = e := hid x h1.1 hxid
    rw [h2] at h1
    linarith [h1.2]

/-- Witness for C5 at a concrete collection, expired entity and op list. -/
theorem sweep_removes_expired_witness :
    ((Entity.mk "a" 0 5).lifeTime ≤
        5 - (Entity.mk "a" 0 5).createdAt ∧
      (∀ x ∈ [Entity.mk "a" 0 5, Entity.mk "b" 0 100],
        x.id = (Entity.mk "a" 0 5).id → x = Entity.mk "a" 0 5) ∧
      (∀ op ∈ [EntityOp.add (Entity.mk "c" 6 10) 150, EntityOp.sweepAt 7],
        opFresh (Entity.mk "a" 0 5).id op)) ∧
    ((∀ x, x ∈ sweep 5 [Entity.mk "a" 0 5, Entity.mk "b" 0 100] ↔
        x ∈ [Entity.mk "a" 0 5, Entity.mk "b" 0 100] ∧
        5 - x.createdAt < x.lifeTime) ∧
      Entity.mk "a" 0 5 ∉ sweep 5 [Entity.mk "a" 0 5, Entity.mk "b" 0 100] ∧
      (∀ x ∈ applyOps (sweep 5 [Entity.mk "a" 0 5, Entity.mk "b" 0 100])
          [EntityOp.add (Entity.mk "c" 6 10) 150, EntityOp.sweepAt 7],
        x.id ≠ (Entity.mk "a" 0 5).id)) :=
  ⟨⟨by norm_num, by decide, by decide⟩,
    sweep_removes_expired [Entity.mk "a" 0 5, Entity.mk "b" 0 100]
      (Entity.mk "a" 0 5) 5
      [EntityOp.add (Entity.mk "c" 6 10) 150, EntityOp.sweepAt 7]
      (by norm_num) (by decide) (by decide)⟩

lemma bytesToInt16_encode (s : ℤ) (h1 : -32768 ≤ s) (h2 : s < 32768) :
    bytesToInt16 ((s % 65536).toNat % 256) ((s % 65536).toNat / 256) = s := by
  simp only [bytesToInt16]
  have hu : (s % 65536).toNat % 256 + 256 * ((s % 65536).toNat / 256) =
      (s % 65536).toNat := Nat.mod_add_div _ _
  split <;> omega

lemma toInt16List_encode (samples : List ℤ)
    (h : ∀ s ∈ samples, -32768 ≤ s ∧ s < 32768) :
    toInt16List (encodePcm16 samples) = samples := by
  induction samples with
  | nil => rfl
  | cons s rest ih =>
    have hs := h s (List.mem_cons_self _ _)
    simp only [encodePcm16, toInt16List]
    rw [bytesToInt16_encode s hs.1 hs.2,
      ih (fun x hx => h x (List.mem_cons_of_mem _ hx))]

lemma range_map_getD (l : List ℤ) (f : ℤ → ℚ) :
    (List.range l.length).map (fun i => f (l.getD i 0)) = l.map f := by
  induction l with
  | nil => rfl
  | cons a t ih =>
    rw [List.length_cons, List.range_succ_eq_map, List.map_cons,
      List.map_map]
    congr 1

/-- C8: decoding the little-endian 16-bit mono PCM encoding of any sample
list reconstructs exactly the values samples[i] / 32768 (the decode of
the encode loses nothing beyond the 16-bit quantisation already present
in the samples). -/
theorem pcm_roundtrip (samples : List ℤ)
    (h : ∀ s ∈ samples, -32768 ≤ s ∧ s < 32768) :
    decodeAudioData (encodePcm16 samples) 24000 1 =
      ⟨24000, [samples.map (fun (s : ℤ) => (s : ℚ) / 32768)]⟩ := by
  unfold decodeAudioData
  rw [toInt16List_encode samples h]
  have h1 : List.range 1 = [0] := rfl
  rw [h1]
  simp only [List.map_cons, List.map_nil, Nat.div_one, Nat.mul_one,
    Nat.add_zero]
  rw [range_map_getD samples (fun v => (v : ℚ) / 32768)]

/-- Witness for C8 at a concrete sample list spanning the int16 range. -/
theorem pcm_roundtrip_witness :
    (∀ s ∈ [(0 : ℤ), 1, -1, 32767, -32768], -32768 ≤ s ∧ s < 32768) ∧
    decodeAudioData (encodePcm16 [(0 : ℤ), 1, -1, 32767, -32768]) 24000 1 =
      ⟨24000, [[(0 : ℤ), 1, -1, 32767, -32768].map
        (fun (s : ℤ) => (s : ℚ) / 32768)]⟩ :=
  ⟨by decide, pcm_roundtrip [(0 : ℤ), 1, -1, 32767, -32768] (by decide)⟩

/-- C2: when the awaited cloud request fails, the part_001 speakCloud
catches the error and invokes the system-speech fallback with the same
text (and the caller never sees the error), while the part_000 speakCloud
catches the error and invokes NO fallback at all — its catch block is
empty apart from a comment deferring the fallback to a caller that does
not provide one.  Evaluated at a concrete failing request. -/
theorem speakCloud_fallback_divergence :
    speakCloud_v1 (initState []) "сигнал из пустоты" .GEMINI "Zephyr" 1
        (.error "network") =
      [.cloudRequest "gemini-2.5-flash-preview-tts" "сигнал из пустоты"
        "Zephyr",
       .webSpeech "сигнал из пустоты" 1] ∧
    speakCloud_v0 (initState []) "сигнал из пустоты" .GEMINI "Zephyr" 1
        (.error "network") =
      [.cloudRequest "gemini-2.5-flash-preview-tts" "сигнал из пустоты"
        "Zephyr"] := by
  decide

lemma keyList_eq : keyList =
    ["KeyQ", "KeyW", "KeyE", "KeyR", "KeyT", "KeyY", "KeyU", "KeyI",
     "KeyO", "KeyP", "KeyA", "KeyS", "KeyD", "KeyF", "KeyG", "KeyH",
     "KeyJ", "KeyK", "KeyL", "KeyZ", "KeyX", "KeyC", "KeyV", "KeyB",
     "KeyN", "KeyM"] := by
  decide

lemma buildKeyMap_get_mem (sh : List ℚ) (hsh : sh ≠ []) :
    ∀ (ks : List String) (i : ℕ) (k : String) (f : ℚ),
    mapGet (buildKeyMap ks i sh) k = some f → f ∈ sh := by
  intro ks
  induction ks with
  | nil => intro i k f hf; simp [buildKeyMap, mapGet] at hf
  | cons k1 rest ih =>
    intro i k f hf
    simp only [buildKeyMap, mapGet] at hf
    by_cases hk : k1 = k
    · rw [if_pos hk] at hf
      have hlt : i % sh.length < sh.length :=
        Nat.mod_lt i (List.length_pos.mpr hsh)
      rw [← Option.some_inj.mp hf, List.getD_eq_getElem sh 0 hlt]
      exact List.getElem_mem hlt
    · rw [if_neg hk] at hf
      exact ih (i + 1) k f hf

lemma buildKeyMap_get_isSome (sh : List ℚ) :
    ∀ (ks : List String) (i : ℕ) (k : String), k ∈ ks →
    (mapGet (buildKeyMap ks i sh) k).isSome := by
  intro ks
  induction ks with
  | nil => intro i k hk; simp at hk
  | cons k1 rest ih =>
    intro i k hk
    simp only [buildKeyMap, mapGet]
    by_cases h1 : k1 = k
    · rw [if_pos h1]; rfl
    · rw [if_neg h1]
      rcases List.mem_cons.mp hk with h | h
      · exact absurd h.symm h1
      · exact ih (i + 1) k h

lemma mapGet_cons_ne {α : Type} (k1 k : String) (h : k1 ≠ k) (v : α)
    (m : List (String × α)) : mapGet ((k1, v) :: m) k = mapGet m k := by
  simp [mapGet, h]

lemma keyMap_wrap (sh : List ℚ) (hlen : sh.length = 20) :
    mapGet (buildKeyMap keyList 0 sh) "KeyQ" = some (sh.getD 0 0) ∧
    mapGet (buildKeyMap keyList 0 sh) "KeyX" = some (sh.getD 0 0) := by
  rw [keyList_eq]
  simp only [buildKeyMap, hlen]
  constructor
  · norm_num [mapGet]
  · rw [mapGet_cons_ne "KeyQ" "KeyX" (by decide),
      mapGet_cons_ne "KeyW" "KeyX" (by decide),
      mapGet_cons_ne "KeyE" "KeyX" (by decide),
      mapGet_cons_ne "KeyR" "KeyX" (by decide),
      mapGet_cons_ne "KeyT" "KeyX" (by decide),
      mapGet_cons_ne "KeyY" "KeyX" (by decide),
      mapGet_cons_ne "KeyU" "KeyX" (by decide),
      mapGet_cons_ne "KeyI" "KeyX" (by decide),
      mapGet_cons_ne "KeyO" "KeyX" (by decide),
      mapGet_cons_ne "KeyP" "KeyX" (by decide),
      mapGet_cons_ne "KeyA" "KeyX" (by decide),
      mapGet_cons_ne "KeyS" "KeyX" (by decide),
      mapGet_cons_ne "KeyD" "KeyX" (by decide),
      mapGet_cons_ne "KeyF" "KeyX" (by decide),
      mapGet_cons_ne "KeyG" "KeyX" (by decide),
      mapGet_cons_ne "KeyH" "KeyX" (by decide),
      mapGet_cons_ne "KeyJ" "KeyX" (by decide),
      mapGet_cons_ne "KeyK" "KeyX" (by decide),
      mapGet_cons_ne "KeyL" "KeyX" (by decide),
      mapGet_cons_ne "KeyZ" "KeyX" (by decide)]
    norm_num [mapGet]

/-- C6 counterexample: the generated key map is not injective.  The
identity shuffle (a possible outcome of the Math.random sort) maps both
KeyQ (index 0) and KeyX (index 20, wrapped by i % 20) to the first
palette frequency, yet the two keys are distinct. -/
theorem keyMap_not_injective :
    "KeyQ" ≠ "KeyX" ∧
    (mapGet (generateKeyMap (initState []) baseFreqs).keyFreqMap
        "KeyQ").isSome ∧
    mapGet (generateKeyMap (initState []) baseFreqs).keyFreqMap "KeyQ" =
      mapGet (generateKeyMap (initState []) baseFreqs).keyFreqMap
        "KeyX" := by
  obtain ⟨hq, hx⟩ := keyMap_wrap baseFreqs (by rfl)
  refine ⟨by decide, ?_, ?_⟩
  · show (mapGet (buildKeyMap keyList 0 baseFreqs) "KeyQ").isSome
    rw [hq]
    rfl
  · show mapGet (buildKeyMap keyList 0 baseFreqs) "KeyQ" =
      mapGet (buildKeyMap keyList 0 baseFreqs) "KeyX"
    rw [hq, hx]

/-- C6 amended: generateKeyMap maps every one of the 26 keys to a
frequency of the fixed 20-element palette and only replaces the key map
(the rest of the engine state is untouched), but it is not a bijection:
with 26 keys wrapped onto 20 palette entries by i % 20, keys 20 positions
apart (for instance KeyQ and KeyX) always share a frequency. -/
theorem keyMap_palette_cover (s : EngineState) (shuffled : List ℚ)
    (hperm : shuffled.Perm baseFreqs) :
    (∀ k f, mapGet (generateKeyMap s shuffled).keyFreqMap k = some f →
      f ∈ baseFreqs) ∧
    (∀ k ∈ keyList,
      (mapGet (generateKeyMap s shuffled).keyFreqMap k).isSome) ∧
    mapGet (generateKeyMap s shuffled).keyFreqMap "KeyQ" =
      mapGet (generateKeyMap s shuffled).keyFreqMap "KeyX" ∧
    (generateKeyMap s shuffled).activeOscillators = s.activeOscillators ∧
    (generateKeyMap s shuffled).beatTimer = s.beatTimer ∧
    (generateKeyMap s shuffled).currentStep = s.currentStep ∧
    (generateKeyMap s shuffled).currentPreset = s.currentPreset ∧
    (generateKeyMap s shuffled).ctxInit = s.ctxInit := by
  have hlen : shuffled.length = 20 := by
    rw [hperm.length_eq]; rfl
  have hne : shuffled ≠ [] := by
    intro hnil; rw [hnil] at hlen; simp at hlen
  obtain ⟨hq, hx⟩ := keyMap_wrap shuffled hlen
  refine ⟨?_, ?_, ?_, rfl, rfl, rfl, rfl, rfl⟩
  · intro k f hf
    exact hperm.subset (buildKeyMap_get_mem shuffled hne keyList 0 k f hf)
  · intro k hk
    exact buildKeyMap_get_isSome shuffled keyList 0 k hk
  · show mapGet (buildKeyMap keyList 0 shuffled) "KeyQ" =
      mapGet (buildKeyMap keyList 0 shuffled) "KeyX"
    rw [hq, hx]

/-- Witness for the amended C6 at the identity shuffle of the palette. -/
theorem keyMap_palette_cover_witness :
    baseFreqs.Perm baseFreqs ∧
    ((∀ k f, mapGet (generateKeyMap (initState []) baseFreqs).keyFreqMap k
        = some f → f ∈ baseFreqs) ∧
      (∀ k ∈ keyList, (mapGet (generateKeyMap (initState [])
        baseFreqs).keyFreqMap k).isSome) ∧
      mapGet (generateKeyMap (initState []) baseFreqs).keyFreqMap "KeyQ" =
        mapGet (generateKeyMap (initState []) baseFreqs).keyFreqMap
          "KeyX" ∧
      (generateKeyMap (initState []) baseFreqs).activeOscillators =
        (initState []).activeOscillators ∧
      (generateKeyMap (initState []) baseFreqs).beatTimer =
        (initState []).beatTimer ∧
      (generateKeyMap (initState []) baseFreqs).currentStep =
        (initState []).currentStep ∧
      (generateKeyMap (initState []) baseFreqs).currentPreset =
        (initState []).currentPreset ∧
      (generateKeyMap (initState []) baseFreqs).ctxInit =
        (initState []).ctxInit) :=
  ⟨List.Perm.refl baseFreqs,
    keyMap_palette_cover (initState []) baseFreqs
      (List.Perm.refl baseFreqs)⟩

/-- C7 counterexample: before init, startBeats is not a state no-op — it
still installs the interval timer (and resets the step counter), so the
engine state changes even though the context is null. -/
theorem startBeats_uninit_not_noop :
    uninitState.ctxInit = false ∧
    startBeats uninitState 120 .DNB .CLASSIC ≠ uninitState := by
  refine ⟨rfl, fun h => ?_⟩
  have hbt := congrArg EngineState.beatTimer h
  obtain ⟨_, ht, _⟩ := startBeats_fields uninitState 120 .DNB .CLASSIC
  rw [ht] at hbt
  simp [uninitState] at hbt

/-- C7 amended: before init, playNote, stopNote, clearAllNotes,
setVolumes and speakCloud (both variants) are strict no-ops that never
throw — they change no engine state and produce no sound or request —
and stopBeats is a no-op whenever no timer is installed; startBeats never
throws and produces no sound (the installed ticks fire no drums and leave
the step counter untouched while uninitialised) but it does reset the
step counter and install/replace the beat timer. -/
theorem uninit_ops_spec (s : EngineState) (k text voice : String)
    (now r a b c vol bpm : ℚ) (p : TtsProvider) (style : DrumStyle)
    (amen : AmenType) (outcome : CloudOutcome) (rand : ℕ → ℚ)
    (h : s.ctxInit = false) :
    playNote s k now = s ∧
    stopNote s k now r = s ∧
    clearAllNotes s = s ∧
    setVolumes s a b c now = s ∧
    speakCloud_v0 s text p voice vol outcome = [] ∧
    speakCloud_v1 s text p voice vol outcome = [] ∧
    (s.beatTimer = none → stopBeats s = s) ∧
    (startBeats s bpm style amen).currentStep = 0 ∧
    (startBeats s bpm style amen).beatTimer =
      some ⟨60 / bpm / 4 * 1000, style, amen⟩ ∧
    beatTick (startBeats s bpm style amen) rand =
      (startBeats s bpm style amen, []) := by
  obtain ⟨h0, ht, hcp⟩ := startBeats_fields s bpm style amen
  refine ⟨by simp [playNote, h], ?_, by simp [clearAllNotes, h],
    by simp [setVolumes, h], by simp [speakCloud_v0, h],
    by simp [speakCloud_v1, h], fun hbt => by simp [stopBeats, hbt],
    h0, ht, ?_⟩
  · cases hm : mapGet s.activeOscillators k <;> simp [stopNote, hm, h]
  · have hc : (startBeats s bpm style amen).ctxInit = false := by
      rw [hcp]; exact h
    simp [beatTick, ht, hc]

/-- Witness for the amended C7 at the pre-init engine state. -/
theorem uninit_ops_spec_witness :
    uninitState.ctxInit = false ∧
    (playNote uninitState "KeyQ" 0 = uninitState ∧
      speakCloud_v0 uninitState "тишина" .GEMINI "Zephyr" 1
        (.error "network") = [] ∧
      (startBeats uninitState 120 .DNB .CLASSIC).beatTimer =
        some ⟨60 / 120 / 4 * 1000, .DNB, .CLASSIC⟩ ∧
      beatTick (startBeats uninitState 120 .DNB .CLASSIC) (fun _ => 0) =
        (startBeats uninitState 120 .DNB .CLASSIC, [])) :=
  ⟨by decide,
    (uninit_ops_spec uninitState "KeyQ" "тишина" "Zephyr" 0 0 0 0 0 1 120
      .GEMINI .DNB .CLASSIC (.error "network") (fun _ => 0)
      (by decide)).1,
    (uninit_ops_spec uninitState "KeyQ" "тишина" "Zephyr" 0 0 0 0 0 1 120
      .GEMINI .DNB .CLASSIC (.error "network") (fun _ => 0)
      (by decide)).2.2.2.2.1,
    (uninit_ops_spec uninitState "KeyQ" "тишина" "Zephyr" 0 0 0 0 0 1 120
      .GEMINI .DNB .CLASSIC (.error "network") (fun _ => 0)
      (by decide)).2.2.2.2.2.2.2.2.1,
    (uninit_ops_spec uninitState "KeyQ" "тишина" "Zephyr" 0 0 0 0 0 1 120
      .GEMINI .DNB .CLASSIC (.error "network") (fun _ => 0)
      (by decide)).2.2.2.2.2.2.2.2.2⟩

/-- Witness for C1 at a concrete initialised engine state. -/
theorem playNote_idempotent_witness :
    (initState []).ctxInit = true ∧
    (((initState []).activeOscillators.map Prod.fst).Nodup) ∧
    (((mapGet (initState []).activeOscillators "KeyQ").isSome →
        playNote (initState []) "KeyQ" 0 = initState []) ∧
      voiceCount (playNote (playNote (initState []) "KeyQ" 0) "KeyQ" 1)
        "KeyQ" = 1) :=
  ⟨by decide, by decide,
    playNote_idempotent (initState []) "KeyQ" 0 1 (by decide) (by decide)⟩

end JungleSpace
